import Mathlib

/-!
# Verification of the IRIS drawing-pipeline against its specification

This file gives a shallow embedding, in Lean 4, of the core pipeline of the
IRIS "AI artist" server (`main.py`, `old.py`): the geometry normalizer, the
schema validator, the playback engine, the session broadcaster, the gallery
listing, the generation-loop cooldown and the circuit breaker.  Python
numbers are modelled as `ℚ` (every check performed by the code — clamping,
range comparison, division by a small integer — is exact on the values in
range, so rationals are a faithful carrier), strings as `String`, fallible
steps as `Option`/`Except`, and the asynchronous replay/broadcast
interleaving as an explicit step function over schedules.
-/

namespace Iris

/-! ## Data model

`RawElement` is one entry of the `elements` array of the JSON document
returned by the instruction compiler, after `json.loads`: `points` is the
parsed point list, and the fields read with `dict.get` in the source
(`stroke_width`, `animation_speed`, `closed`) are optional.  `Element` is
the fully-populated element produced by the normalization block of
`ArtGenerator.get_drawing_instructions` (main.py lines 338–354). -/

structure RawElement where
  etype : String
  description : String
  points : List (ℚ × ℚ)
  color : String
  stroke_width : Option ℚ
  animation_speed : Option ℚ
  closed : Option Bool
  deriving DecidableEq, Repr

structure Element where
  etype : String
  description : String
  points : List (ℚ × ℚ)
  color : String
  stroke_width : ℚ
  animation_speed : ℚ
  closed : Bool
  deriving DecidableEq, Repr

/-- A validated drawing program: `{description, background, elements}`. -/
structure Instructions where
  description : String
  background : String
  elements : List Element
  deriving DecidableEq, Repr

/-! ## Geometry normalizer

Translation of the element clean-up block of
`ArtGenerator.get_drawing_instructions`, main.py lines 338–354:

```python
element["points"] = [[min(max(x, 0), 800), min(max(y, 0), 400)]
                     for x, y in element["points"]]
if element["type"] in ["wave", "spiral"] and len(element["points"]) > 20:
    element["points"] = element["points"][:20]
elif element["type"] == "circle" and len(element["points"]) > 32:
    element["points"] = element["points"][:32]
element["animation_speed"] = element.get("animation_speed", 0.02)
element["stroke_width"] = min(max(element.get("stroke_width", 2), 1), 3)
element["closed"] = element.get("closed", True)
```
-/

/-- Clamp one point into the 800×400 canvas:
`[min(max(x, 0), 800), min(max(y, 0), 400)]`. -/
def clampPoint (p : ℚ × ℚ) : ℚ × ℚ :=
  (min (max p.1 0) 800, min (max p.2 0) 400)

/-- The per-type point-count truncation of main.py lines 345–349: wave and
spiral lists longer than 20 keep their first 20 entries, circle lists longer
than 32 keep their first 32; every other case (including `line`) is left
unchanged. -/
def limitPoints (etype : String) (pts : List (ℚ × ℚ)) : List (ℚ × ℚ) :=
  if (etype = "wave" ∨ etype = "spiral") ∧ pts.length > 20 then pts.take 20
  else if etype = "circle" ∧ pts.length > 32 then pts.take 32
  else pts

/-- The whole normalization pass applied to one element (main.py 338–354). -/
def normalizeElement (e : RawElement) : Element :=
  { etype := e.etype
    description := e.description
    points := limitPoints e.etype (e.points.map clampPoint)
    color := e.color
    stroke_width := min (max (e.stroke_width.getD 2) 1) 3
    animation_speed := e.animation_speed.getD 0.02
    closed := e.closed.getD true }

/-- Modelled from the spec: the spec (§4.1) says normalization "truncates
`points` to the type's ceiling by selecting an evenly-spaced subsequence
(stride = ceil(len/limit)) rather than a naive prefix".  This definition
follows those words, to be compared with the truncation the source actually
performs; no such stride-sampling code exists in the sources. -/
def strideSample (limit : ℕ) (xs : List (ℚ × ℚ)) : List (ℚ × ℚ) :=
  if xs.length ≤ limit then xs
  else
    let stride := (xs.length + limit - 1) / limit
    ((xs.enum.filter (fun p => p.1 % stride = 0)).map (·.2))

/-- A line element whose three points survive normalization untouched. -/
def exLineElement : RawElement :=
  { etype := "line", description := "diagonal", points := [(0, 0), (100, 50), (200, 100)]
    color := "#ff0000", stroke_width := some 2, animation_speed := some 0.02
    closed := some false }

/-- An element with out-of-range style values (spec §8 scenario). -/
def exStyleElement : RawElement :=
  { etype := "circle", description := "d", points := [(400, 200), (1000, 200)]
    color := "#ff0000", stroke_width := some 5, animation_speed := some (0.2 : ℚ)
    closed := some true }

/-- A 40-point wave along the x-axis, used to distinguish prefix truncation
from stride sampling. -/
def exWaveElement : RawElement :=
  { etype := "wave", description := "w"
    points := (List.range 40).map (fun i => ((i : ℚ), 0))
    color := "#00ff00", stroke_width := some 2, animation_speed := some 0.02
    closed := some false }

/-- C2 (counterexample): the claim states that a `line` element comes out of
normalization with at most its first two points, but the truncation block of
`get_drawing_instructions` has no branch for `line` at all: this 3-point
line element still has 3 points after normalization. -/
theorem C2_counterexample :
    (normalizeElement exLineElement).points.length = 3 ∧
      ¬ (normalizeElement exLineElement).points.length ≤ 2 := by
  decide

/-- C2 (amended): after normalization a `circle` element has at most 32
points and a `wave` or `spiral` element has at most 20 points; a `line`
element is not truncated and keeps exactly as many points as it came with. -/
theorem C2_point_ceilings (e : RawElement) :
    (e.etype = "circle" → (normalizeElement e).points.length ≤ 32) ∧
    ((e.etype = "wave" ∨ e.etype = "spiral") →
      (normalizeElement e).points.length ≤ 20) ∧
    (e.etype = "line" → (normalizeElement e).points.length = e.points.length) := by
  refine ⟨fun hc => ?_, fun hw => ?_, fun hl => ?_⟩
  · show (limitPoints e.etype (e.points.map clampPoint)).length ≤ 32
    rw [hc]
    unfold limitPoints
    split
    · rename_i h; rcases h.1 with h | h <;> exact absurd h (by decide)
    · split
      · simp
      · rename_i h1 h2
        have hle : ¬ (e.points.map clampPoint).length > 32 := fun hgt => h2 ⟨rfl, hgt⟩
        omega
  · show (limitPoints e.etype (e.points.map clampPoint)).length ≤ 20
    unfold limitPoints
    split
    · simp
    · rename_i h1
      split
      · rename_i h2
        rcases hw with hw | hw <;> rw [hw] at h2 <;> exact absurd h2.1 (by decide)
      · have hle : ¬ (e.points.map clampPoint).length > 20 := fun hgt => h1 ⟨hw, hgt⟩
        omega
  · show (limitPoints e.etype (e.points.map clampPoint)).length = e.points.length
    rw [hl]
    unfold limitPoints
    rw [if_neg (by rintro ⟨h | h, -⟩ <;> exact absurd h (by decide)),
        if_neg (by rintro ⟨h, -⟩; exact absurd h (by decide))]
    simp

/-- C2 (witness): the ceilings evaluated on concrete elements of each type. -/
theorem C2_point_ceilings_witness :
    (normalizeElement exStyleElement).points.length ≤ 32 ∧
      (normalizeElement exWaveElement).points.length ≤ 20 ∧
      (normalizeElement exLineElement).points.length = exLineElement.points.length := by
  refine ⟨(C2_point_ceilings exStyleElement).1 (by decide),
    (C2_point_ceilings exWaveElement).2.1 (Or.inl (by decide)),
    (C2_point_ceilings exLineElement).2.2 (by decide)⟩

/-- C3 (counterexample): the claim states `animation_speed` is clamped into
[0.01, 0.05], in particular that an input with `animation_speed` 0.2 comes
out with 0.05; the code only defaults a missing `animation_speed` to 0.02
and never clamps it, so 0.2 comes out as 0.2. -/
theorem C3_counterexample :
    (normalizeElement exStyleElement).animation_speed = (0.2 : ℚ) ∧
      (0.2 : ℚ) ≠ (0.05 : ℚ) := by
  refine ⟨rfl, by norm_num⟩

/-- C3 (amended): normalization clamps `stroke_width` into [1, 3] (so input
5 comes out as 3), but `animation_speed` is only defaulted to 0.02 when
absent and is never clamped: an input element with `animation_speed` 0.2
comes out with `animation_speed` 0.2. -/
theorem C3_clamping (e : RawElement) :
    (1 ≤ (normalizeElement e).stroke_width ∧ (normalizeElement e).stroke_width ≤ 3) ∧
    (normalizeElement e).animation_speed = e.animation_speed.getD 0.02 ∧
    (e.stroke_width = some 5 → (normalizeElement e).stroke_width = 3) ∧
    (e.animation_speed = some (0.2 : ℚ) →
      (normalizeElement e).animation_speed = (0.2 : ℚ)) := by
  refine ⟨⟨le_min (le_max_right _ _) (by norm_num), min_le_right _ _⟩, rfl, ?_, ?_⟩
  · intro h
    simp only [normalizeElement, h, Option.getD_some]
    rw [max_eq_left (by norm_num : (1 : ℚ) ≤ 5),
      min_eq_right (by norm_num : (3 : ℚ) ≤ 5)]
  · intro h
    simp [normalizeElement, h]

/-- C3 (witness): the clamping theorem applied to the concrete element with
`stroke_width` 5 and `animation_speed` 0.2. -/
theorem C3_clamping_witness :
    (normalizeElement exStyleElement).stroke_width = 3 ∧
      (normalizeElement exStyleElement).animation_speed = (0.2 : ℚ) :=
  ⟨(C3_clamping exStyleElement).2.2.1 rfl, (C3_clamping exStyleElement).2.2.2 rfl⟩

/-- C4 (counterexample): the claim states over-long point lists are truncated
by an evenly-spaced stride subsequence; on a 40-point wave the code keeps the
first 20 points (a plain prefix), which differs from the stride-sampled
subsequence (stride ceil(40/20) = 2) the claim describes. -/
theorem C4_counterexample :
    (normalizeElement exWaveElement).points
        = (List.range 20).map (fun i => ((i : ℚ), 0)) ∧
      (normalizeElement exWaveElement).points
        ≠ strideSample 20 (exWaveElement.points.map clampPoint) := by
  decide

/-- C4 (amended): when an element has more points than its type's ceiling,
normalization truncates the (bounds-clamped) point list by taking its first
`limit` points — a plain prefix — not by stride sampling. -/
theorem C4_truncation_take (e : RawElement) :
    ((e.etype = "wave" ∨ e.etype = "spiral") → e.points.length > 20 →
      (normalizeElement e).points = (e.points.map clampPoint).take 20) ∧
    (e.etype = "circle" → e.points.length > 32 →
      (normalizeElement e).points = (e.points.map clampPoint).take 32) := by
  constructor
  · intro hty hlen
    simp only [normalizeElement, limitPoints, List.length_map]
    rw [if_pos ⟨hty, hlen⟩]
  · intro hty hlen
    have hne : ¬ ((e.etype = "wave" ∨ e.etype = "spiral") ∧
        (e.points.map clampPoint).length > 20) := by
      rintro ⟨hw | hs, -⟩ <;> simp_all
    simp only [normalizeElement, limitPoints]
    rw [if_neg hne, if_pos ⟨hty, by simpa using hlen⟩]

/-- C4 (witness): prefix truncation evaluated on the 40-point wave. -/
theorem C4_truncation_take_witness :
    (normalizeElement exWaveElement).points
      = (exWaveElement.points.map clampPoint).take 20 :=
  (C4_truncation_take exWaveElement).1 (Or.inl rfl) (by decide)

/-! ## Playback engine

Translation of `ArtGenerator.execute_drawing` (main.py lines 456–540).  The
function broadcasts a stream of JSON messages; we model each message kind as
a `Cmd` constructor.  The per-point pacing sleep and the pixel-count
statistics do not affect which messages are emitted and are not modelled.
The `display_update` broadcast performed by `update_status` after every
`draw` (main.py 510–518) is modelled as `Cmd.progressUpdate` carrying the
progress value `(points_drawn / total_points) * 100`. -/

inductive Cmd where
  | clear
  | setBackground (color : String)
  | startDrawing (x y : ℚ) (color : String) (width : ℚ) (desc : String)
  | draw (x y : ℚ)
  | stopDrawing
  | progressUpdate (value : ℚ)
  deriving DecidableEq, Repr

/-- The inner point loop, main.py 505–520: for each point after the first,
emit a `draw` command, increment `points_drawn`, and report progress
`(points_drawn / total_points) * 100`. -/
def drawPointCmds (total : ℚ) : ℕ → List (ℚ × ℚ) → List Cmd
  | _, [] => []
  | drawn, (x, y) :: rest =>
      Cmd.draw x y ::
        Cmd.progressUpdate (((drawn : ℚ) + 1) / total * 100) ::
          drawPointCmds total (drawn + 1) rest

/-- One element's commands, main.py 475–537: an element with no points is
skipped with a warning; otherwise `startDrawing` at the first point, one
`draw` (with progress report) per subsequent point, one extra `draw` back to
the first point when `closed` and more than 2 points, then `stopDrawing`.
Returns the commands and the updated `points_drawn` counter. -/
def elementCmds (total : ℚ) (drawn : ℕ) (e : Element) : List Cmd × ℕ :=
  match e.points with
  | [] => ([], drawn)
  | (x0, y0) :: rest =>
      (Cmd.startDrawing x0 y0 e.color e.stroke_width e.description ::
          (drawPointCmds total drawn rest ++
            (if e.closed ∧ rest.length + 1 > 2 then [Cmd.draw x0 y0] else []) ++
            [Cmd.stopDrawing]),
        drawn + rest.length)

/-- The element loop of `execute_drawing`, threading `points_drawn`. -/
def elementsCmds (total : ℚ) : ℕ → List Element → List Cmd
  | _, [] => []
  | drawn, e :: es =>
      (elementCmds total drawn e).1 ++ elementsCmds total (elementCmds total drawn e).2 es

/-- `total_points = sum(len(element["points"]) for element in elements)`
(main.py 461). -/
def totalPoints (instr : Instructions) : ℕ :=
  (instr.elements.map (fun e => e.points.length)).sum

/-- The full broadcast stream of `execute_drawing` (main.py 456–540):
`clear`, `setBackground`, then each element's commands. -/
def execute_drawing (instr : Instructions) : List Cmd :=
  Cmd.clear :: Cmd.setBackground instr.background ::
    elementsCmds ((totalPoints instr : ℚ)) 0 instr.elements

/-- `self.current_state`, the in-flight command log: the code resets it to
`[clear, setBackground]` at the start of `execute_drawing` and appends every
drawing command right before broadcasting it (main.py 467–469, 501, 507,
526, 536); the `display_update` progress messages are not appended, so the
log is exactly the progress-free subsequence of the broadcast stream. -/
def current_state (instr : Instructions) : List Cmd :=
  (execute_drawing instr).filter (fun c =>
    match c with | Cmd.progressUpdate _ => false | _ => true)

/-- Predicate for `draw` commands (`{"type": "draw", ...}` messages). -/
def isDrawCmd : Cmd → Bool
  | Cmd.draw _ _ => true
  | _ => false

def isStartCmd : Cmd → Bool
  | Cmd.startDrawing _ _ _ _ _ => true
  | _ => false

def isStopCmd : Cmd → Bool
  | Cmd.stopDrawing => true
  | _ => false

def isClearCmd : Cmd → Bool
  | Cmd.clear => true
  | _ => false

def drawCount (cs : List Cmd) : ℕ := cs.countP isDrawCmd

def startCount (cs : List Cmd) : ℕ := cs.countP isStartCmd

def stopCount (cs : List Cmd) : ℕ := cs.countP isStopCmd

def clearCount (cs : List Cmd) : ℕ := cs.countP isClearCmd

/-- The successive progress values reported on the stream, in order. -/
def progressValues (cs : List Cmd) : List ℚ :=
  cs.filterMap (fun c => match c with | Cmd.progressUpdate v => some v | _ => none)

/-- Number of elements with a non-empty point list (those actually drawn). -/
def nonemptyCount (es : List Element) : ℕ :=
  es.countP (fun e => !e.points.isEmpty)

/-- Number of elements that get the extra closing `draw` command. -/
def closedCount (es : List Element) : ℕ :=
  es.countP (fun e => e.closed && decide (2 < e.points.length))

/-- Points drawn by the inner loops: one per point after the first of each
element. -/
def drawnPoints (es : List Element) : ℕ :=
  (es.map (fun e => e.points.tail.length)).sum

lemma drawPointCmds_counts (total : ℚ) (drawn : ℕ) (ps : List (ℚ × ℚ)) :
    drawCount (drawPointCmds total drawn ps) = ps.length ∧
      startCount (drawPointCmds total drawn ps) = 0 ∧
      stopCount (drawPointCmds total drawn ps) = 0 ∧
      clearCount (drawPointCmds total drawn ps) = 0 := by
  induction ps generalizing drawn with
  | nil =>
    simp [drawPointCmds, drawCount, startCount, stopCount, clearCount]
  | cons p rest ih =>
    obtain ⟨x, y⟩ := p
    obtain ⟨ihd, ihs, iht, ihc⟩ := ih (drawn + 1)
    simp only [drawCount, startCount, stopCount, clearCount] at ihd ihs iht ihc ⊢
    simp only [drawPointCmds, List.countP_cons, ihd, ihs, iht, ihc]
    refine ⟨?_, ?_, ?_, ?_⟩ <;>
      simp [isDrawCmd, isStartCmd, isStopCmd, isClearCmd]

lemma drawPointCmds_progress (total : ℚ) (drawn : ℕ) (ps : List (ℚ × ℚ)) :
    progressValues (drawPointCmds total drawn ps)
      = (List.range ps.length).map
          (fun (k : ℕ) => ((drawn : ℚ) + (k : ℚ) + 1) / total * 100) := by
  induction ps generalizing drawn with
  | nil => simp [drawPointCmds, progressValues]
  | cons p rest ih =>
    obtain ⟨x, y⟩ := p
    rw [List.length_cons, List.range_succ_eq_map, List.map_cons, List.map_map]
    simp only [drawPointCmds, progressValues, List.filterMap_cons]
    congr 1
    · norm_num
    · rw [show List.filterMap
            (fun c => match c with | Cmd.progressUpdate v => some v | _ => none)
            (drawPointCmds total (drawn + 1) rest)
          = progressValues (drawPointCmds total (drawn + 1) rest) from rfl, ih (drawn + 1)]
      refine List.map_congr_left (fun k _ => ?_)
      simp only [Function.comp_apply, Nat.succ_eq_add_one]
      push_cast
      ring

lemma elementCmds_snd (total : ℚ) (drawn : ℕ) (e : Element) :
    (elementCmds total drawn e).2 = drawn + e.points.tail.length := by
  match he : e.points with
  | [] => simp [elementCmds, he]
  | (x0, y0) :: rest => simp [elementCmds, he]

lemma elementCmds_counts (total : ℚ) (drawn : ℕ) (e : Element) :
    drawCount (elementCmds total drawn e).1
        = e.points.tail.length
            + (if e.closed && decide (2 < e.points.length) then 1 else 0) ∧
      startCount (elementCmds total drawn e).1 = (if e.points.isEmpty then 0 else 1) ∧
      stopCount (elementCmds total drawn e).1 = (if e.points.isEmpty then 0 else 1) ∧
      clearCount (elementCmds total drawn e).1 = 0 := by
  match he : e.points with
  | [] =>
    simp [elementCmds, he, drawCount, startCount, stopCount, clearCount]
  | (x0, y0) :: rest =>
    obtain ⟨hd, hs, ht, hc⟩ := drawPointCmds_counts total drawn rest
    simp only [drawCount, startCount, stopCount, clearCount] at hd hs ht hc ⊢
    by_cases hcl : e.closed ∧ rest.length + 1 > 2
    · obtain ⟨hc1, hc2⟩ := hcl
      refine ⟨?_, ?_, ?_, ?_⟩ <;>
        (simp [elementCmds, he, hc1, hc2, List.countP_cons, List.countP_append,
          isDrawCmd, isStartCmd, isStopCmd, isClearCmd, hd, hs, ht, hc];
         try omega)
    · have h2 : e.closed = false ∨ ¬ 2 < rest.length + 1 := by
        rcases Bool.eq_false_or_eq_true e.closed with h | h
        · exact Or.inr (fun hgt => hcl ⟨h, hgt⟩)
        · exact Or.inl h
      rcases h2 with h | h <;>
        refine ⟨?_, ?_, ?_, ?_⟩ <;>
          (simp [elementCmds, he, h, List.countP_cons, List.countP_append,
            isDrawCmd, isStartCmd, isStopCmd, isClearCmd, hd, hs, ht, hc];
           try omega)

lemma elementCmds_progress (total : ℚ) (drawn : ℕ) (e : Element) :
    progressValues (elementCmds total drawn e).1
      = (List.range e.points.tail.length).map
          (fun (k : ℕ) => ((drawn : ℚ) + (k : ℚ) + 1) / total * 100) := by
  match he : e.points with
  | [] => simp [elementCmds, he, progressValues]
  | (x0, y0) :: rest =>
    have hdp := drawPointCmds_progress total drawn rest
    simp only [progressValues] at hdp ⊢
    by_cases hcl : e.closed ∧ rest.length + 1 > 2 <;>
      simp [elementCmds, he, hcl, hdp]

lemma elementsCmds_counts (total : ℚ) (es : List Element) : ∀ drawn : ℕ,
    drawCount (elementsCmds total drawn es) = drawnPoints es + closedCount es ∧
      startCount (elementsCmds total drawn es) = nonemptyCount es ∧
      stopCount (elementsCmds total drawn es) = nonemptyCount es ∧
      clearCount (elementsCmds total drawn es) = 0 := by
  induction es with
  | nil =>
    intro drawn
    simp [elementsCmds, drawCount, startCount, stopCount, clearCount,
      drawnPoints, nonemptyCount, closedCount]
  | cons e es ih =>
    intro drawn
    obtain ⟨ihd, ihs, iht, ihc⟩ := ih (elementCmds total drawn e).2
    obtain ⟨hd, hs, ht, hc⟩ := elementCmds_counts total drawn e
    simp only [drawCount, startCount, stopCount, clearCount] at ihd ihs iht ihc hd hs ht hc ⊢
    rcases Bool.eq_false_or_eq_true (e.closed && decide (2 < e.points.length)) with
        hclb | hclb <;>
      rcases Bool.eq_false_or_eq_true e.points.isEmpty with hemp | hemp <;>
      refine ⟨?_, ?_, ?_, ?_⟩ <;>
        simp [elementsCmds, List.countP_append, List.countP_cons, drawnPoints,
          nonemptyCount, closedCount, List.map_cons, List.sum_cons, ihd, ihs,
          iht, ihc, hd, hs, ht, hc, hclb, hemp] <;>
        omega

lemma elementsCmds_progress (total : ℚ) (es : List Element) : ∀ drawn : ℕ,
    progressValues (elementsCmds total drawn es)
      = (List.range (drawnPoints es)).map
          (fun (k : ℕ) => ((drawn : ℚ) + (k : ℚ) + 1) / total * 100) := by
  induction es with
  | nil => intro drawn; simp [elementsCmds, progressValues, drawnPoints]
  | cons e es ih =>
    intro drawn
    have h2 := elementCmds_snd total drawn e
    have hp := elementCmds_progress total drawn e
    have ihp := ih (elementCmds total drawn e).2
    rw [h2] at ihp
    simp only [progressValues] at hp ihp ⊢
    simp only [elementsCmds, List.filterMap_append]
    rw [hp, h2, ihp]
    have hsum : drawnPoints (e :: es) = e.points.tail.length + drawnPoints es := by
      simp [drawnPoints]
    rw [hsum, List.range_add, List.map_append, List.map_map]
    congr 1
    refine List.map_congr_left (fun k _ => ?_)
    simp only [Function.comp_apply]
    push_cast
    ring

lemma nonemptyCount_add_drawnPoints (es : List Element) :
    nonemptyCount es + drawnPoints es = (es.map (fun e => e.points.length)).sum ∧
      nonemptyCount es ≤ (es.map (fun e => e.points.length)).sum := by
  induction es with
  | nil => simp [nonemptyCount, drawnPoints]
  | cons e es ih =>
    obtain ⟨ih1, ih2⟩ := ih
    simp only [nonemptyCount, drawnPoints, List.countP_cons, List.map_cons,
      List.sum_cons] at ih1 ih2 ⊢
    cases hpts : e.points with
    | nil =>
      simp only [hpts, List.isEmpty_nil, Bool.not_true, List.tail_nil,
        List.length_nil, if_false, Bool.false_eq_true]
      omega
    | cons p rest =>
      simp only [hpts, List.isEmpty_cons, Bool.not_false, List.tail_cons,
        List.length_cons, if_true, eq_self_iff_true]
      omega

/-- A 3-point open wave element, already normalized. -/
def exElement : Element :=
  { etype := "wave", description := "w", points := [(0, 0), (10, 0), (20, 0)]
    color := "#ff0000", stroke_width := 2, animation_speed := 0.02
    closed := false }

/-- A one-element program with 3 points: N = 3, one non-empty element. -/
def exInstructions : Instructions :=
  { description := "ex", background := "#000000", elements := [exElement] }

/-- C1 (counterexample): on a program with one element of 3 points (N = 3),
the claim predicts exactly 3 draw commands and a final reported progress of
100; `execute_drawing` emits a `draw` only for each point after the first of
an element, so it emits 2 draw commands, and the progress reported after the
last one is (2/3)·100 = 200/3 ≠ 100. -/
theorem C1_counterexample :
    totalPoints exInstructions = 3 ∧
      drawCount (execute_drawing exInstructions) = 2 ∧ (2 : ℕ) ≠ 3 ∧
      (progressValues (execute_drawing exInstructions)).getLast?
        = some ((200 : ℚ) / 3) ∧
      (200 : ℚ) / 3 ≠ 100 := by
  refine ⟨rfl, by decide, by decide, ?_, by norm_num⟩
  have h := elementsCmds_progress ((totalPoints exInstructions : ℚ))
    exInstructions.elements 0
  have hdp : drawnPoints exInstructions.elements = 2 := by decide
  rw [hdp] at h
  have hpv : progressValues (execute_drawing exInstructions)
      = progressValues (elementsCmds ((totalPoints exInstructions : ℚ)) 0
          exInstructions.elements) := by
    simp [execute_drawing, progressValues]
  rw [hpv, h, show totalPoints exInstructions = 3 from rfl]
  norm_num [List.range_succ]

/-- C1 (amended): for a program whose elements hold N points in total, of
which E elements are non-empty (empty ones are skipped) and C are closed
with more than 2 points, playback emits exactly N − E draw commands plus the
C closing draws, one startDrawing/stopDrawing pair per non-empty element,
and the progress values reported after the draw commands are
(1/N)·100, …, ((N−E)/N)·100 in order — so the progress reported after the
last draw command is ((N−E)/N)·100, not 100. -/
theorem C1_playback_counts (instr : Instructions) :
    drawCount (execute_drawing instr)
        = (totalPoints instr - nonemptyCount instr.elements)
            + closedCount instr.elements ∧
      startCount (execute_drawing instr) = nonemptyCount instr.elements ∧
      stopCount (execute_drawing instr) = nonemptyCount instr.elements ∧
      progressValues (execute_drawing instr)
        = (List.range (totalPoints instr - nonemptyCount instr.elements)).map
            (fun (k : ℕ) => ((k : ℚ) + 1) / (totalPoints instr : ℚ) * 100) ∧
      (0 < totalPoints instr - nonemptyCount instr.elements →
        (progressValues (execute_drawing instr)).getLast?
          = some (((totalPoints instr - nonemptyCount instr.elements : ℕ) : ℚ)
              / (totalPoints instr : ℚ) * 100)) := by
  obtain ⟨hd, hs, ht, _⟩ :=
    elementsCmds_counts ((totalPoints instr : ℚ)) instr.elements 0
  obtain ⟨hsum, hle⟩ := nonemptyCount_add_drawnPoints instr.elements
  have htp : (instr.elements.map (fun e => e.points.length)).sum = totalPoints instr :=
    rfl
  rw [htp] at hsum hle
  have hdp : drawnPoints instr.elements
      = totalPoints instr - nonemptyCount instr.elements := by omega
  have hpv : progressValues (execute_drawing instr)
      = progressValues (elementsCmds ((totalPoints instr : ℚ)) 0 instr.elements) := by
    simp [execute_drawing, progressValues]
  have hcnt : ∀ p : Cmd → Bool, p Cmd.clear = false →
      p (Cmd.setBackground instr.background) = false →
      (execute_drawing instr).countP p
        = (elementsCmds ((totalPoints instr : ℚ)) 0 instr.elements).countP p := by
    intro p h1 h2
    simp [execute_drawing, List.countP_cons, h1, h2]
  have hprog := elementsCmds_progress ((totalPoints instr : ℚ)) instr.elements 0
  rw [hdp] at hprog
  have hprog' : progressValues (execute_drawing instr)
      = (List.range (totalPoints instr - nonemptyCount instr.elements)).map
          (fun (k : ℕ) => ((k : ℚ) + 1) / (totalPoints instr : ℚ) * 100) := by
    rw [hpv, hprog]
    refine List.map_congr_left (fun k _ => ?_)
    norm_num
  refine ⟨?_, ?_, ?_, hprog', ?_⟩
  · rw [show drawCount (execute_drawing instr)
        = (execute_drawing instr).countP isDrawCmd from rfl,
      hcnt isDrawCmd rfl rfl]
    rw [show (elementsCmds ((totalPoints instr : ℚ)) 0 instr.elements).countP isDrawCmd
        = drawCount (elementsCmds ((totalPoints instr : ℚ)) 0 instr.elements) from rfl,
      hd, hdp]
  · rw [show startCount (execute_drawing instr)
        = (execute_drawing instr).countP isStartCmd from rfl,
      hcnt isStartCmd rfl rfl]
    exact hs
  · rw [show stopCount (execute_drawing instr)
        = (execute_drawing instr).countP isStopCmd from rfl,
      hcnt isStopCmd rfl rfl]
    exact ht
  · intro hpos
    rw [hprog']
    obtain ⟨m, hm⟩ : ∃ m, totalPoints instr - nonemptyCount instr.elements = m + 1 :=
      ⟨totalPoints instr - nonemptyCount instr.elements - 1, by omega⟩
    rw [hm, List.range_succ, List.map_append, List.map_cons, List.map_nil,
      List.getLast?_concat]
    congr 1
    push_cast
    ring

/-- C1 (witness): the amended count/progress theorem evaluated on the
3-point one-element program, where N − E = 2 > 0. -/
theorem C1_playback_counts_witness :
    (progressValues (execute_drawing exInstructions)).getLast?
      = some (((totalPoints exInstructions
            - nonemptyCount exInstructions.elements : ℕ) : ℚ)
          / (totalPoints exInstructions : ℚ) * 100) :=
  (C1_playback_counts exInstructions).2.2.2.2 (by decide)

/-! ## Session broadcaster

Translation of `ArtGenerator.broadcast_state` (main.py lines 405–425).  An
observer is an opaque sink; whether its `send_json` succeeds for the
broadcast message is modelled by the `sendOk` field.  The Python `set` of
viewers is modelled as the list snapshot in the set's iteration order.  The
code iterates the set, collects failing viewers in a separate `disconnected`
set, and only after the loop performs `self.viewers -= disconnected`, so the
set is never mutated during its own iteration. -/

structure Viewer where
  vid : ℕ
  sendOk : Bool
  deriving DecidableEq, Repr

/-- The fan-out loop of `broadcast_state`: the first component of the fold
accumulator is the list of viewer ids the message was delivered to, in
iteration order; the second is the `disconnected` collection.  After the
loop the failing viewers are removed from the set. -/
def broadcast_state (viewers : List Viewer) : List ℕ × List Viewer :=
  let res := viewers.foldl
    (fun (acc : List ℕ × List Viewer) (v : Viewer) =>
      if v.sendOk then (acc.1 ++ [v.vid], acc.2) else (acc.1, acc.2 ++ [v]))
    ([], [])
  (res.1, viewers.filter (fun v => v ∉ res.2))

lemma broadcast_fold (vs : List Viewer) : ∀ (d : List ℕ) (f : List Viewer),
    vs.foldl
        (fun (acc : List ℕ × List Viewer) (v : Viewer) =>
          if v.sendOk then (acc.1 ++ [v.vid], acc.2) else (acc.1, acc.2 ++ [v]))
        (d, f)
      = (d ++ (vs.filter (fun v => v.sendOk)).map (fun v => v.vid),
          f ++ vs.filter (fun v => !v.sendOk)) := by
  induction vs with
  | nil => intro d f; simp
  | cons v vs ih =>
    intro d f
    rcases Bool.eq_false_or_eq_true v.sendOk with h | h <;>
      simp [List.foldl_cons, h, ih, List.filter_cons]

/-- C6: a broadcast attempts delivery to every observer present at its
start: exactly the observers whose send succeeds receive the message, in
iteration order — a failure earlier in the iteration does not prevent later
deliveries — and after the broadcast exactly the failing observers have
been removed from the set. -/
theorem C6_broadcast_fanout (viewers : List Viewer) :
    (broadcast_state viewers).1
        = (viewers.filter (fun v => v.sendOk)).map (fun v => v.vid) ∧
      (broadcast_state viewers).2 = viewers.filter (fun v => v.sendOk) := by
  unfold broadcast_state
  rw [broadcast_fold viewers [] []]
  refine ⟨by simp, ?_⟩
  simp only [List.nil_append]
  refine List.filter_congr (fun v hv => ?_)
  rcases Bool.eq_false_or_eq_true v.sendOk with h | h
  · have hnot : v ∉ viewers.filter (fun v => !v.sendOk) := by
      intro hmem
      have h2 := (List.mem_filter.1 hmem).2
      rw [h] at h2
      simp at h2
    simp [hnot, h]
  · have hmem : v ∈ viewers.filter (fun v => !v.sendOk) :=
      List.mem_filter.2 ⟨hv, by rw [h]; rfl⟩
    simp [hmem, h]

/-! ## Replay to a late joiner

`websocket_endpoint` (main.py 1048–1076) adds the new socket to
`generator.viewers` and then iterates `generator.current_state`, sending
each logged command to the new observer.  Both the replay loop and the
generator's drawing loop are cooperative tasks: every `send_json` is an
`await`, so between any two replayed sends the generator may broadcast a
fresh command — which is delivered to the new observer at once (it is
already in `viewers`) and appended to `current_state` (which the replay
`for` loop, iterating by index, will also reach).  We model this with an
explicit interleaving: a schedule is a list of steps, `none` for one
iteration of the replay loop and `some c` for a live broadcast of `c`. -/

structure ReplaySession where
  log : List Cmd
  idx : ℕ
  received : List Cmd
  deriving DecidableEq, Repr

/-- One iteration of `for cmd in generator.current_state: await
websocket.send_json(cmd)`: if the index is still within the (possibly
grown) log, send that entry and advance. -/
def replayStep (s : ReplaySession) : ReplaySession :=
  if h : s.idx < s.log.length then
    { s with idx := s.idx + 1, received := s.received ++ [s.log.get ⟨s.idx, h⟩] }
  else s

/-- A live broadcast during the replay: `execute_drawing` appends the
command to `current_state` and `broadcast_state` delivers it to every
viewer, including the replaying one. -/
def liveStep (c : Cmd) (s : ReplaySession) : ReplaySession :=
  { s with log := s.log ++ [c], received := s.received ++ [c] }

def runSession : List (Option Cmd) → ReplaySession → ReplaySession
  | [], s => s
  | none :: rest, s => runSession rest (replayStep s)
  | some c :: rest, s => runSession rest (liveStep c s)

def initSession (log : List Cmd) : ReplaySession :=
  { log := log, idx := 0, received := [] }

/-- The in-flight log at the moment the observer joined mid-drawing. -/
def exReplayLog : List Cmd := [Cmd.clear, Cmd.setBackground "#000000"]

/-- The schedule of the counterexample: one replay iteration, then a live
`draw` broadcast, then the remaining replay iterations. -/
def exReplaySchedule : List (Option Cmd) :=
  [none, some (Cmd.draw 1 2), none, none]

/-- C7 (counterexample): with log `[clear, setBackground]` and a live `draw`
broadcast after the first replayed send, the joining observer receives
`[clear, draw, setBackground, draw]`: the live `draw` arrives before the
replayed `setBackground` (and is received twice, once live and once when the
replay loop reaches it in the grown log), so the observer does not receive
every logged command before new live commands, contrary to the claim, which
predicts `[clear, setBackground, draw]`. -/
theorem C7_counterexample :
    (runSession exReplaySchedule (initSession exReplayLog)).received
        = [Cmd.clear, Cmd.draw 1 2, Cmd.setBackground "#000000", Cmd.draw 1 2] ∧
      (runSession exReplaySchedule (initSession exReplayLog)).received
        ≠ exReplayLog ++ [Cmd.draw 1 2] := by
  decide

lemma runSession_noLive (L : List Cmd) : ∀ (n k : ℕ) (received : List Cmd),
    n = L.length - k → k ≤ L.length →
    runSession (List.replicate n none) { log := L, idx := k, received := received }
      = { log := L, idx := L.length, received := received ++ L.drop k } := by
  intro n
  induction n with
  | zero =>
    intro k received hn hk
    have hkl : k = L.length := by omega
    subst hkl
    simp [runSession]
  | succ m ih =>
    intro k received hn hk
    have hlt : k < L.length := by omega
    rw [List.replicate_succ]
    show runSession (List.replicate m none)
        (replayStep { log := L, idx := k, received := received }) = _
    rw [show replayStep { log := L, idx := k, received := received }
        = { log := L, idx := k + 1, received := received ++ [L.get ⟨k, hlt⟩] } by
      simp [replayStep, hlt]]
    rw [ih (k + 1) (received ++ [L.get ⟨k, hlt⟩]) (by omega) (by omega)]
    have hdrop : L.drop k = L.get ⟨k, hlt⟩ :: L.drop (k + 1) := by
      rw [List.drop_eq_getElem_cons hlt]
      rfl
    rw [hdrop]
    simp

/-- C7 (amended): the replay sends the joining observer the full in-flight
command log — everything since the last `Clear`: the log begins with the
single `Clear` of the current drawing and contains no other — in original
emission order, provided no live broadcast interleaves with the replay
loop; a command broadcast live during the replay is delivered to the
observer immediately and appended to the log, so it can precede older
replayed commands and be received twice. -/
theorem C7_replay_since_clear (instr : Instructions) :
    (runSession (List.replicate (current_state instr).length none)
        (initSession (current_state instr))).received = current_state instr ∧
      (current_state instr).head? = some Cmd.clear ∧
      clearCount (current_state instr) = 1 := by
  refine ⟨?_, ?_, ?_⟩
  · rw [show initSession (current_state instr)
        = { log := current_state instr, idx := 0, received := [] } from rfl,
      runSession_noLive (current_state instr) (current_state instr).length 0 []
        (by omega) (by omega)]
    simp
  · simp [current_state, execute_drawing]
  · have hfn : (fun c => isClearCmd c
        && (match c with | Cmd.progressUpdate _ => false | _ => true)) = isClearCmd := by
      funext c
      cases c <;> rfl
    obtain ⟨-, -, -, hcl⟩ :=
      elementsCmds_counts ((totalPoints instr : ℚ)) instr.elements 0
    simp only [clearCount, current_state, List.countP_filter, hfn] at *
    simp [execute_drawing, List.countP_cons, isClearCmd, hcl]

/-! ## Orchestrator cooldown

Translation of the head of the generation loop, `ArtGenerator.start`
(main.py 610–627): each iteration re-reads `last_generation_time` from the
database, computes the elapsed time, and if it is below
`min_generation_interval` (120 seconds, main.py 198) sleeps exactly the
remainder and `continue`s — re-running the check — before the ideation
phase may begin.  `env` maps the current time to the value the database
read returns at that moment (it is durable shared state other processes may
update). -/

inductive LoopAction where
  | wait (t : ℚ)
  | beginIdeation
  deriving DecidableEq, Repr

/-- The cooldown gate of one loop iteration (main.py 617–623). -/
def cooldownCheck (now lastGen : ℚ) : LoopAction :=
  if now - lastGen < 120 then LoopAction.wait (120 - (now - lastGen))
  else LoopAction.beginIdeation

inductive LoopEvent where
  | waited (time t : ℚ)
  | ideation (time : ℚ)
  deriving DecidableEq, Repr

/-- The loop, fuel-bounded, recorded as a trace of events: a `wait`
advances the clock by the slept remainder and re-checks; otherwise the
ideation phase begins. -/
def generationLoop (env : ℚ → ℚ) : ℕ → ℚ → List LoopEvent
  | 0, _ => []
  | fuel + 1, now =>
    match cooldownCheck now (env now) with
    | LoopAction.wait t => LoopEvent.waited now t :: generationLoop env fuel (now + t)
    | LoopAction.beginIdeation => [LoopEvent.ideation now]

/-- C9: the ideation phase begins exactly when the elapsed time since the
database's last-generation time is at least 120 seconds; when it is less,
the iteration waits precisely the remainder and the next thing the loop
does is re-check the gate at the new time (with a fresh database read).
Consequently every ideation event in any trace of the loop occurs at a time
whose elapsed distance from the durable last-generation value is ≥ 120. -/
theorem C9_cooldown_gate :
    (∀ now lastGen : ℚ,
      (cooldownCheck now lastGen = LoopAction.beginIdeation ↔ 120 ≤ now - lastGen)) ∧
    (∀ now lastGen : ℚ, now - lastGen < 120 →
      cooldownCheck now lastGen = LoopAction.wait (120 - (now - lastGen))) ∧
    (∀ (env : ℚ → ℚ) (fuel : ℕ) (now : ℚ), now - env now < 120 →
      generationLoop env (fuel + 1) now
        = LoopEvent.waited now (120 - (now - env now))
            :: generationLoop env fuel (now + (120 - (now - env now)))) ∧
    (∀ (env : ℚ → ℚ) (fuel : ℕ) (now t : ℚ),
      LoopEvent.ideation t ∈ generationLoop env fuel now → 120 ≤ t - env t) := by
  have hiff : ∀ now lastGen : ℚ,
      (cooldownCheck now lastGen = LoopAction.beginIdeation ↔ 120 ≤ now - lastGen) := by
    intro now lastGen
    unfold cooldownCheck
    split <;> rename_i h
    · simp only [reduceCtorEq, false_iff]
      intro h2
      linarith
    · simp only [true_iff]
      linarith
  refine ⟨hiff, ?_, ?_, ?_⟩
  · intro now lastGen h
    unfold cooldownCheck
    rw [if_pos h]
  · intro env fuel now h
    show (match cooldownCheck now (env now) with
      | LoopAction.wait t => LoopEvent.waited now t :: generationLoop env fuel (now + t)
      | LoopAction.beginIdeation => [LoopEvent.ideation now]) = _
    rw [show cooldownCheck now (env now)
        = LoopAction.wait (120 - (now - env now)) by unfold cooldownCheck; rw [if_pos h]]
  · intro env fuel
    induction fuel with
    | zero =>
      intro now t h
      simp [generationLoop] at h
    | succ m ih =>
      intro now t h
      rw [show generationLoop env (m + 1) now
          = (match cooldownCheck now (env now) with
            | LoopAction.wait t => LoopEvent.waited now t :: generationLoop env m (now + t)
            | LoopAction.beginIdeation => [LoopEvent.ideation now]) from rfl] at h
      rcases hc : cooldownCheck now (env now) with t' | _
      · rw [hc] at h
        rcases List.mem_cons.1 h with h1 | h1
        · exact absurd h1 (by simp)
        · exact ih (now + t') t h1
      · rw [hc] at h
        rcases List.mem_cons.1 h with h1 | h1
        · have ht : t = now := LoopEvent.ideation.inj h1
          rw [ht]
          exact (hiff now (env now)).1 hc
        · simp at h1

/-- C9 (witness): the gate evaluated at concrete times: at elapsed 130 the
loop ideates, at elapsed 100 it waits the 20-second remainder and
re-checks, and the ideation event of a concrete trace satisfies the
interval bound. -/
theorem C9_cooldown_gate_witness :
    cooldownCheck 130 0 = LoopAction.beginIdeation ∧
      cooldownCheck 100 0 = LoopAction.wait 20 ∧
      generationLoop (fun _ => 0) 1 100
        = LoopEvent.waited 100 20 :: generationLoop (fun _ => 0) 0 120 ∧
      (120 : ℚ) ≤ 130 - (fun (_ : ℚ) => (0 : ℚ)) 130 := by
  refine ⟨(C9_cooldown_gate.1 130 0).2 (by norm_num), ?_, ?_, ?_⟩
  · rw [C9_cooldown_gate.2.1 100 0 (by norm_num)]
    norm_num
  · have h := C9_cooldown_gate.2.2.1 (fun _ => 0) 0 100 (by norm_num)
    rw [h]
    norm_num
  · refine C9_cooldown_gate.2.2.2 (fun _ => 0) 1 130 130 ?_
    show LoopEvent.ideation 130 ∈
      (match cooldownCheck 130 ((fun _ => (0 : ℚ)) 130) with
        | LoopAction.wait t =>
            LoopEvent.waited 130 t :: generationLoop (fun _ => 0) 0 (130 + t)
        | LoopAction.beginIdeation => [LoopEvent.ideation 130])
    rw [show cooldownCheck 130 ((fun _ => (0 : ℚ)) 130) = LoopAction.beginIdeation from
      (C9_cooldown_gate.1 130 0).2 (by norm_num)]
    exact List.mem_singleton.2 rfl

/-! ## Circuit breaker

Translation of `CircuitBreaker` (main.py 144–172).  `ArtGenerator`
constructs it with the default `failure_threshold=5, reset_timeout=60`
(main.py 201), and `get_art_idea` is
`await self.api_breaker.call(self._get_art_idea)` (main.py 224–226), so a
blocked call raises without contacting the text-completion collaborator.
`call` is modelled as a function of the breaker, the current time, and
whether the wrapped idea request would fail; when the breaker is open and
the reset timeout has not elapsed it returns `blocked` without consulting
that outcome at all. -/

inductive BreakerState where
  | closed
  | opened
  | halfOpen
  deriving DecidableEq, Repr

structure CircuitBreaker where
  failure_count : ℕ
  failure_threshold : ℕ
  reset_timeout : ℚ
  last_failure_time : ℚ
  state : BreakerState
  deriving DecidableEq, Repr

/-- `CircuitBreaker()` with the defaults used for `self.api_breaker`. -/
def CircuitBreaker.init : CircuitBreaker :=
  { failure_count := 0, failure_threshold := 5, reset_timeout := 60
    last_failure_time := 0, state := BreakerState.closed }

inductive CallOutcome where
  | blocked
  | ok
  | errored
  deriving DecidableEq, Repr

/-- `CircuitBreaker.call` (main.py 152–172): when open, either the reset
timeout has elapsed (go half-open and proceed) or the call raises
immediately (`blocked`) without invoking the wrapped function; a successful
call in half-open state closes the breaker and resets the count; a failure
increments the count, stamps the failure time, and opens the breaker once
the count reaches the threshold, re-raising (`errored`). -/
def CircuitBreaker.call (b : CircuitBreaker) (now : ℚ) (funcFails : Bool) :
    CallOutcome × CircuitBreaker :=
  let gate : Option CircuitBreaker :=
    if b.state = BreakerState.opened then
      (if now - b.last_failure_time > b.reset_timeout
        then some { b with state := BreakerState.halfOpen }
        else none)
    else some b
  match gate with
  | none => (CallOutcome.blocked, b)
  | some b' =>
    if funcFails then
      (CallOutcome.errored,
        { b' with
          failure_count := b'.failure_count + 1
          last_failure_time := now
          state := if b'.failure_count + 1 ≥ b'.failure_threshold
            then BreakerState.opened else b'.state })
    else
      if b'.state = BreakerState.halfOpen then
        (CallOutcome.ok, { b' with state := BreakerState.closed, failure_count := 0 })
      else (CallOutcome.ok, b')

/-- `get_art_idea` delegates every idea request to the breaker
(main.py 224–226); `ideaFails` is whether the wrapped `_get_art_idea` call
would raise. -/
def getArtIdea (b : CircuitBreaker) (now : ℚ) (ideaFails : Bool) :
    CallOutcome × CircuitBreaker :=
  b.call now ideaFails

/-- A sequence of idea requests that all fail, at the given times. -/
def applyFailures (b : CircuitBreaker) (ts : List ℚ) : CircuitBreaker :=
  ts.foldl (fun b t => (getArtIdea b t true).2) b

/-- C10: (1) from a fresh breaker, 5 consecutive failed idea requests leave
the breaker open with the last failure stamped; (2) while open, any call
within the 60-second reset window returns `blocked` with the breaker
untouched, independently of the wrapped call's outcome — the collaborator
is not contacted; (3) once more than 60 seconds have passed, a call is let
through in half-open state, and if it succeeds the breaker closes and the
failure count resets to 0. -/
theorem C10_breaker_behavior :
    (∀ t1 t2 t3 t4 t5 : ℚ,
      applyFailures CircuitBreaker.init [t1, t2, t3, t4, t5]
        = { failure_count := 5, failure_threshold := 5, reset_timeout := 60
            last_failure_time := t5, state := BreakerState.opened }) ∧
    (∀ (b : CircuitBreaker) (now : ℚ) (f : Bool),
      b.state = BreakerState.opened →
      ¬ now - b.last_failure_time > b.reset_timeout →
      getArtIdea b now f = (CallOutcome.blocked, b)) ∧
    (∀ (b : CircuitBreaker) (now : ℚ),
      b.state = BreakerState.opened →
      now - b.last_failure_time > b.reset_timeout →
      getArtIdea b now false
        = (CallOutcome.ok,
            { b with state := BreakerState.closed, failure_count := 0 })) := by
  refine ⟨?_, ?_, ?_⟩
  · intro t1 t2 t3 t4 t5
    rfl
  · intro b now f hopen hwin
    unfold getArtIdea CircuitBreaker.call
    rw [if_pos hopen, if_neg hwin]
  · intro b now hopen hexp
    unfold getArtIdea CircuitBreaker.call
    rw [if_pos hopen, if_pos hexp]
    rfl

/-- A breaker opened by five failures at time 0. -/
def exOpenBreaker : CircuitBreaker :=
  applyFailures CircuitBreaker.init [0, 0, 0, 0, 0]

/-- C10 (witness): the breaker behavior at concrete inputs: five failures
at time 0 open the breaker; at time 60 (within the window) a call is
blocked whatever the collaborator would do; at time 61 a successful trial
closes it and resets the count. -/
theorem C10_breaker_behavior_witness :
    exOpenBreaker
        = { failure_count := 5, failure_threshold := 5, reset_timeout := 60
            last_failure_time := 0, state := BreakerState.opened } ∧
      getArtIdea exOpenBreaker 60 true = (CallOutcome.blocked, exOpenBreaker) ∧
      getArtIdea exOpenBreaker 60 false = (CallOutcome.blocked, exOpenBreaker) ∧
      getArtIdea exOpenBreaker 61 false
        = (CallOutcome.ok,
            { exOpenBreaker with state := BreakerState.closed, failure_count := 0 }) := by
  have h0 := C10_breaker_behavior.1 0 0 0 0 0
  have hex : exOpenBreaker
      = { failure_count := 5, failure_threshold := 5, reset_timeout := 60
          last_failure_time := 0, state := BreakerState.opened } := by
    simp only [exOpenBreaker]
    exact h0
  refine ⟨hex, ?_, ?_, ?_⟩
  · exact C10_breaker_behavior.2.1 exOpenBreaker 60 true (by rw [hex]) (by rw [hex]; norm_num)
  · exact C10_breaker_behavior.2.1 exOpenBreaker 60 false (by rw [hex]) (by rw [hex]; norm_num)
  · exact C10_breaker_behavior.2.2 exOpenBreaker 61 (by rw [hex]) (by rw [hex]; norm_num)

/-! ## Instruction validator

`SmartDrawingBot.validate_against_schema` (old.py 369–436) checks a parsed
JSON document and returns `True` or the first failing check's reason
string; we model the result as `Option String` (`none` = valid).  Parsed
JSON values are modelled by `JValue`: Python `int` and `float` are merged
into one rational constructor (every check the validator performs treats
them identically, always testing `isinstance(x, (int, float))`), objects
are association lists with the unique keys `json.loads` leaves behind.
Python's `bool` is a subclass of `int`, so `isinstance(True, (int, float))`
holds and `True`/`False` compare as 1/0 — `pyIsNumber`/`pyNumVal`
reproduce that.  `re.match` with the anchored pattern `^#[0-9A-Fa-f]{6}$`
also accepts one trailing newline (the semantics of Python's `$`), and
raises `TypeError` on a non-string, which the validator's surrounding
`try` turns into a generic "Validation error: ..." reason; both are
reproduced.  The validator reads, and never writes, its argument; the
model is a pure function. -/

inductive JValue where
  | str (s : String)
  | num (q : ℚ)
  | bool (b : Bool)
  | arr (xs : List JValue)
  | obj (fields : List (String × JValue))
  | null

/-- Dictionary lookup (the key is present when this is consulted). -/
def lookupD (fields : List (String × JValue)) (k : String) : JValue :=
  match fields.find? (fun p => p.1 = k) with
  | some p => p.2
  | none => JValue.null

/-- `field in data` on a parsed JSON object. -/
def hasKey (fields : List (String × JValue)) (k : String) : Bool :=
  (fields.find? (fun p => p.1 = k)).isSome

/-- `isinstance(x, (int, float))` — true for Python booleans as well. -/
def pyIsNumber : JValue → Bool
  | JValue.num _ => true
  | JValue.bool _ => true
  | _ => false

/-- The numeric value a Python comparison sees (`True == 1`, `False == 0`). -/
def pyNumVal : JValue → ℚ
  | JValue.num q => q
  | JValue.bool b => if b then 1 else 0
  | _ => 0

def isStrVal : JValue → Bool
  | JValue.str _ => true
  | _ => false

def strValD : JValue → String
  | JValue.str s => s
  | _ => ""

def isBoolVal : JValue → Bool
  | JValue.bool _ => true
  | _ => false

def isObjVal : JValue → Bool
  | JValue.obj _ => true
  | _ => false

def objFieldsD : JValue → List (String × JValue)
  | JValue.obj fs => fs
  | _ => []

def listItemsD : JValue → List JValue
  | JValue.arr xs => xs
  | _ => []

/-- `isinstance(x, list) and x` — a non-empty parsed JSON array. -/
def isNonEmptyList : JValue → Bool
  | JValue.arr xs => !xs.isEmpty
  | _ => false

def isHexDigit (c : Char) : Bool :=
  c.isDigit || ('a' ≤ c && c ≤ 'f') || ('A' ≤ c && c ≤ 'F')

/-- A `#` followed by exactly six hex digits. -/
def hexColorCore : List Char → Bool
  | '#' :: rest => rest.length = 6 && rest.all isHexDigit
  | _ => false

/-- `re.match(r'^#[0-9A-Fa-f]{6}$', s) is not None`: Python's `$` also
matches just before one newline at the very end of the string. -/
def pyHexMatch (s : String) : Bool :=
  hexColorCore s.data ||
    (match s.data.getLast? with
     | some c => (c = '\n') && hexColorCore s.data.dropLast
     | none => false)

/-- `element["type"] not in ["circle", "line", "wave", "spiral"]` is false
exactly for these four strings (list membership on parsed JSON values). -/
def isAllowedType : JValue → Bool
  | JValue.str t => t = "circle" || t = "line" || t = "wave" || t = "spiral"
  | _ => false

/-- The text Python interpolates for the offending value in the
invalid-type message; exact for strings and booleans (the shapes the
theorems below exercise), approximate renderings elsewhere. -/
def pyStr : JValue → String
  | JValue.str s => s
  | JValue.bool true => "True"
  | JValue.bool false => "False"
  | JValue.num q => toString q
  | JValue.arr _ => "<list>"
  | JValue.obj _ => "<dict>"
  | JValue.null => "None"

/-- `isinstance(v, (int, float)) and lo <= v <= hi`. -/
def numInRange (lo hi : ℚ) (v : JValue) : Bool :=
  pyIsNumber v && decide (lo ≤ pyNumVal v) && decide (pyNumVal v ≤ hi)

/-- One coordinate: `isinstance(coord, (int, float)) and 0 <= coord <= bound`. -/
def coordOk (bound : ℚ) (v : JValue) : Bool :=
  pyIsNumber v && decide ((0 : ℚ) ≤ pyNumVal v) && decide (pyNumVal v ≤ bound)

/-- The coordinate conjunction over `enumerate(point)`: index 0 is bounded
by 800, index 1 by 400. -/
def coordsAllOk : JValue → Bool
  | JValue.arr vs => vs.enum.all (fun p => coordOk (if p.1 = 0 then 800 else 400) p.2)
  | _ => false

/-- A sequence of checks, run in order: the first failing one
short-circuits with its reason, exactly like the chain of
`if ...: return msg` statements of the source. -/
def firstFail : List (Bool × String) → Option String
  | [] => none
  | (ok, msg) :: rest => if ok then firstFail rest else some msg

/-- The per-point checks of the loop `for j, point in enumerate(points)`
(old.py 412–417). -/
def pointChecks (i : ℕ) : ℕ → List JValue → List (Bool × String)
  | _, [] => []
  | j, p :: rest =>
      (match p with | JValue.arr q => decide (q.length = 2) | _ => false,
        "Element " ++ toString i ++ ", point " ++ toString j
          ++ " must be [x,y] array") ::
      (coordsAllOk p,
        "Element " ++ toString i ++ ", point " ++ toString j
          ++ " has invalid coordinates") ::
      pointChecks i (j + 1) rest

/-- The checks on one element of the loop (old.py 389–431), in source
order. -/
def elemChecks (i : ℕ) (e : JValue) : List (Bool × String) :=
  let fs := objFieldsD e
  (isObjVal e, "Element " ++ toString i ++ " must be an object") ::
  (["type", "description", "points", "color", "stroke_width", "animation_speed",
      "closed"].map
    (fun k => (hasKey fs k,
      "Element " ++ toString i ++ " missing required field: " ++ k))) ++
  [(isAllowedType (lookupD fs "type"),
      "Element " ++ toString i ++ " has invalid type: " ++ pyStr (lookupD fs "type")),
    (isNonEmptyList (lookupD fs "points"),
      "Element " ++ toString i ++ " must have non-empty points array")] ++
  pointChecks i 0 (listItemsD (lookupD fs "points")) ++
  [(isStrVal (lookupD fs "color"),
      "Validation error: expected string or bytes-like object, got "
        ++ pyStr (lookupD fs "color")),
    (pyHexMatch (strValD (lookupD fs "color")),
      "Element " ++ toString i ++ " has invalid color format"),
    (numInRange 1 3 (lookupD fs "stroke_width"),
      "Element " ++ toString i ++ " has invalid stroke_width"),
    (numInRange 0.01 0.05 (lookupD fs "animation_speed"),
      "Element " ++ toString i ++ " has invalid animation_speed"),
    (isBoolVal (lookupD fs "closed"),
      "Element " ++ toString i ++ " has invalid closed value")]

/-- The element loop `for i, element in enumerate(data["elements"])`. -/
def elemsChecks : ℕ → List JValue → List (Bool × String)
  | _, [] => []
  | i, e :: rest => elemChecks i e ++ elemsChecks (i + 1) rest

/-- The top-level checks of `validate_against_schema` (old.py 372–387), in
source order: required fields, background color format (a non-string
background raises inside `re.match` and surfaces as the generic
"Validation error" reason), then the non-empty `elements` array. -/
def docChecks (fields : List (String × JValue)) : List (Bool × String) :=
  [(hasKey fields "description", "Missing required field: description"),
    (hasKey fields "background", "Missing required field: background"),
    (hasKey fields "elements", "Missing required field: elements"),
    (isStrVal (lookupD fields "background"),
      "Validation error: expected string or bytes-like object, got "
        ++ pyStr (lookupD fields "background")),
    (pyHexMatch (strValD (lookupD fields "background")),
      "Invalid background color format"),
    (isNonEmptyList (lookupD fields "elements"),
      "Elements must be a non-empty array")] ++
  elemsChecks 0 (listItemsD (lookupD fields "elements"))

/-- `SmartDrawingBot.validate_against_schema` (old.py 369–436): `none` is
the `True` outcome, `some msg` the returned reason string. -/
def validate_against_schema (d : JValue) : Option String :=
  match d with
  | JValue.obj fields => firstFail (docChecks fields)
  | _ => some "Response must be an object"

/-! ### The acceptance condition, stated from the claim

`documentOkB` states the claim's acceptance condition as amended: a JSON
object with the required top-level keys, a string background matching the
6-hex-digit color format (with Python's trailing-newline tolerance), and a
non-empty element list whose members each have the required keys, an
allowed type, a non-empty list of 2-tuple points whose entries are numbers
or booleans (Python's bool-is-int) with x ∈ [0,800] and y ∈ [0,400], a
valid color, stroke_width in [1,3] and animation_speed in [0.01,0.05]
(numbers or booleans), and a boolean closed.  `documentOkStrict` is the
claim exactly as written: "numeric" read as a JSON number (booleans
excluded) and the color format read as exactly `#` plus six hex digits. -/

def colorOkB : JValue → Bool
  | JValue.str s => pyHexMatch s
  | _ => false

def pointOkB : JValue → Bool
  | JValue.arr [x, y] => coordOk 800 x && coordOk 400 y
  | _ => false

def elementOkB : JValue → Bool
  | JValue.obj fs =>
      hasKey fs "type" && hasKey fs "description" && hasKey fs "points" &&
      hasKey fs "color" && hasKey fs "stroke_width" &&
      hasKey fs "animation_speed" && hasKey fs "closed" &&
      isAllowedType (lookupD fs "type") &&
      (match lookupD fs "points" with
        | JValue.arr ps => !ps.isEmpty && ps.all pointOkB
        | _ => false) &&
      colorOkB (lookupD fs "color") &&
      numInRange 1 3 (lookupD fs "stroke_width") &&
      numInRange 0.01 0.05 (lookupD fs "animation_speed") &&
      isBoolVal (lookupD fs "closed")
  | _ => false

def documentOkB : JValue → Bool
  | JValue.obj fields =>
      hasKey fields "description" && hasKey fields "background" &&
      hasKey fields "elements" &&
      colorOkB (lookupD fields "background") &&
      (match lookupD fields "elements" with
        | JValue.arr es => !es.isEmpty && es.all elementOkB
        | _ => false)
  | _ => false

/-- A JSON number in the strict sense of the claim (booleans excluded). -/
def isJsonNumber : JValue → Bool
  | JValue.num _ => true
  | _ => false

def coordOkStrict (bound : ℚ) (v : JValue) : Bool :=
  isJsonNumber v && decide ((0 : ℚ) ≤ pyNumVal v) && decide (pyNumVal v ≤ bound)

def numInRangeStrict (lo hi : ℚ) (v : JValue) : Bool :=
  isJsonNumber v && decide (lo ≤ pyNumVal v) && decide (pyNumVal v ≤ hi)

def colorOkStrict : JValue → Bool
  | JValue.str s => hexColorCore s.data
  | _ => false

def pointOkStrict : JValue → Bool
  | JValue.arr [x, y] => coordOkStrict 800 x && coordOkStrict 400 y
  | _ => false

def elementOkStrict : JValue → Bool
  | JValue.obj fs =>
      hasKey fs "type" && hasKey fs "description" && hasKey fs "points" &&
      hasKey fs "color" && hasKey fs "stroke_width" &&
      hasKey fs "animation_speed" && hasKey fs "closed" &&
      isAllowedType (lookupD fs "type") &&
      (match lookupD fs "points" with
        | JValue.arr ps => !ps.isEmpty && ps.all pointOkStrict
        | _ => false) &&
      colorOkStrict (lookupD fs "color") &&
      numInRangeStrict 1 3 (lookupD fs "stroke_width") &&
      numInRangeStrict 0.01 0.05 (lookupD fs "animation_speed") &&
      isBoolVal (lookupD fs "closed")
  | _ => false

/-- The claim's acceptance condition exactly as written. -/
def documentOkStrict : JValue → Bool
  | JValue.obj fields =>
      hasKey fields "description" && hasKey fields "background" &&
      hasKey fields "elements" &&
      colorOkStrict (lookupD fields "background") &&
      (match lookupD fields "elements" with
        | JValue.arr es => !es.isEmpty && es.all elementOkStrict
        | _ => false)
  | _ => false

lemma firstFail_isNone (cs : List (Bool × String)) :
    (firstFail cs).isNone = cs.all (fun c => c.1) := by
  induction cs with
  | nil => rfl
  | cons c rest ih =>
    obtain ⟨ok, msg⟩ := c
    cases ok <;> simp [firstFail, ih]

lemma pointHead_eq (p : JValue) :
    ((match p with | JValue.arr q => decide (q.length = 2) | _ => false)
        && coordsAllOk p) = pointOkB p := by
  cases p with
  | arr q =>
    match q with
    | [] => simp [pointOkB, coordsAllOk]
    | [x] => simp [pointOkB, coordsAllOk]
    | [x, y] =>
      show (decide (([x, y] : List JValue).length = 2) && coordsAllOk (JValue.arr [x, y]))
          = pointOkB (JValue.arr [x, y])
      rw [show decide (([x, y] : List JValue).length = 2) = true from rfl,
        show coordsAllOk (JValue.arr [x, y])
            = (coordOk 800 x && (coordOk 400 y && true)) from rfl,
        show pointOkB (JValue.arr [x, y]) = (coordOk 800 x && coordOk 400 y) from rfl]
      simp
    | x :: y :: z :: rest =>
      have h2 : ¬ ((x :: y :: z :: rest : List JValue).length = 2) := by
        simp only [List.length_cons]
        omega
      simp [pointOkB, h2]
  | str s => rfl
  | num q => rfl
  | bool b => rfl
  | obj fs => rfl
  | null => rfl

lemma pointChecks_all (i : ℕ) (ps : List JValue) : ∀ j : ℕ,
    (pointChecks i j ps).all (fun c => c.1) = ps.all pointOkB := by
  induction ps with
  | nil => intro j; rfl
  | cons p rest ih =>
    intro j
    simp only [pointChecks, List.all_cons, ih (j + 1), ← pointHead_eq p,
      Bool.and_assoc]

lemma colorConj_eq (v : JValue) :
    (isStrVal v && pyHexMatch (strValD v)) = colorOkB v := by
  cases v <;> simp [isStrVal, strValD, colorOkB]

lemma elemChecks_all (i : ℕ) (e : JValue) :
    (elemChecks i e).all (fun c => c.1) = elementOkB e := by
  cases e with
  | obj fs =>
    simp only [elemChecks, elementOkB, objFieldsD, isObjVal, List.all_cons,
      List.all_append, List.map_cons, List.map_nil, List.all_nil,
      Bool.true_and, Bool.and_true, pointChecks_all i _ 0]
    rw [← colorConj_eq (lookupD fs "color")]
    cases hv : lookupD fs "points" <;>
      simp [isNonEmptyList, listItemsD, Bool.and_assoc]
  | str s => rfl
  | num q => rfl
  | bool b => rfl
  | arr xs => rfl
  | null => rfl

lemma elemsChecks_all (es : List JValue) : ∀ i : ℕ,
    (elemsChecks i es).all (fun c => c.1) = es.all elementOkB := by
  induction es with
  | nil => intro i; rfl
  | cons e rest ih =>
    intro i
    simp only [elemsChecks, List.all_append, List.all_cons, ih (i + 1),
      elemChecks_all i e]

/-- The acceptance behavior of the validator, as one Boolean equation. -/
lemma validate_isNone_eq (d : JValue) :
    (validate_against_schema d).isNone = documentOkB d := by
  cases d with
  | obj fields =>
    simp only [validate_against_schema, documentOkB, firstFail_isNone, docChecks,
      List.all_append, List.all_cons, List.all_nil, Bool.and_true,
      elemsChecks_all]
    rw [← colorConj_eq (lookupD fields "background")]
    cases hv : lookupD fields "elements" <;>
      simp [isNonEmptyList, listItemsD, Bool.and_assoc]
  | str s => rfl
  | num q => rfl
  | bool b => rfl
  | arr xs => rfl
  | null => rfl

/-- The spec-§8 scenario document, but with `stroke_width` the JSON boolean
`true` instead of a number; every other field is in contract. -/
def exBoolStrokeDoc : JValue :=
  JValue.obj [("description", JValue.str "x"),
    ("background", JValue.str "#00ff00"),
    ("elements", JValue.arr [JValue.obj [
      ("type", JValue.str "circle"),
      ("description", JValue.str "d"),
      ("points", JValue.arr [JValue.arr [JValue.num 400, JValue.num 200]]),
      ("color", JValue.str "#ff0000"),
      ("stroke_width", JValue.bool true),
      ("animation_speed", JValue.num 0.02),
      ("closed", JValue.bool true)]])]

/-- A document whose first element lacks the `color` key. -/
def exMissingColorDoc : JValue :=
  JValue.obj [("description", JValue.str "x"),
    ("background", JValue.str "#00ff00"),
    ("elements", JValue.arr [JValue.obj [
      ("type", JValue.str "circle"),
      ("description", JValue.str "d"),
      ("points", JValue.arr [JValue.arr [JValue.num 1, JValue.num 2]])]])]

/-- A document whose first element has the disallowed type `"square"`. -/
def exBadTypeDoc : JValue :=
  JValue.obj [("description", JValue.str "x"),
    ("background", JValue.str "#00ff00"),
    ("elements", JValue.arr [JValue.obj [
      ("type", JValue.str "square"),
      ("description", JValue.str "d"),
      ("points", JValue.arr [JValue.arr [JValue.num 1, JValue.num 2]]),
      ("color", JValue.str "#ff0000"),
      ("stroke_width", JValue.num 2),
      ("animation_speed", JValue.num 2),
      ("closed", JValue.bool true)]])]

set_option maxRecDepth 4000 in
/-- C5 (counterexample): the claim says validation returns Ok exactly when,
among the other conditions, `stroke_width` is numeric and in [1,3]; on a
document whose `stroke_width` is the boolean `true` the validator returns
Ok — `isinstance(True, (int, float))` holds and `1 <= True <= 3` in Python
— although the claim's acceptance condition, read as written, rejects it. -/
theorem C5_counterexample :
    validate_against_schema exBoolStrokeDoc = none ∧
      documentOkStrict exBoolStrokeDoc = false := by
  constructor
  · have h := validate_isNone_eq exBoolStrokeDoc
    have hok : documentOkB exBoolStrokeDoc
        = (((decide ((0.01 : ℚ) ≤ 0.02) && decide ((0.02 : ℚ) ≤ 0.05))
            && true) && true) := rfl
    rw [hok] at h
    have hnum : (((decide ((0.01 : ℚ) ≤ 0.02) && decide ((0.02 : ℚ) ≤ 0.05))
        && true) && true) = true := by norm_num
    rw [hnum] at h
    exact Option.isNone_iff_eq_none.1 (by rw [h])
  · rfl

/-- C5 (amended): the validator returns Ok exactly when the candidate is an
object with the required top-level keys, a string background matching the
6-hex-digit color format (with Python's trailing-newline tolerance), and a
non-empty element list in which every element is an object with all
required keys, an allowed type, a non-empty list of 2-entry point arrays
whose coordinates are numbers or booleans (Python treats booleans as the
numbers 1/0) with x ∈ [0,800] and y ∈ [0,400], a valid color,
stroke_width ∈ [1,3] and animation_speed ∈ [0.01,0.05] (numbers or
booleans), and a boolean closed; the first failing check short-circuits
with a reason naming the element/field and rule (a non-string
background/color surfaces as a generic "Validation error" reason), as the
two sample evaluations show; the model is a pure function of its input. -/
theorem C5_validate_iff :
    (∀ d : JValue, (validate_against_schema d).isNone = documentOkB d) ∧
      validate_against_schema exMissingColorDoc
        = some "Element 0 missing required field: color" ∧
      validate_against_schema exBadTypeDoc
        = some "Element 0 has invalid type: square" :=
  ⟨validate_isNone_eq, by decide, by decide⟩

/-! ## Gallery listing

The route `get_gallery` (main.py 1171–1182) answers
`/api/gallery?sort=...&limit=...&offset=...` with
`db_service.get_gallery_items(sort, limit, offset)`.  No method of that
name exists anywhere in the sources — `DatabaseService` (main.py 891–982)
defines only the schema setup, the connection helper and the
last-generation-time accessors — so the listing operation itself is
modelled from the spec below. -/

structure GalleryEntry where
  gid : String
  url : String
  description : String
  reflection : String
  createdAt : ℚ
  votes : ℕ
  pixelCount : ℕ
  deriving DecidableEq, Repr

/-- "Newer first": the later creation timestamp comes first. -/
def byNew (a b : GalleryEntry) : Prop := b.createdAt ≤ a.createdAt

/-- "More votes first". -/
def byVotes (a b : GalleryEntry) : Prop := b.votes ≤ a.votes

instance : DecidableRel byNew := fun a b =>
  inferInstanceAs (Decidable (b.createdAt ≤ a.createdAt))

instance : DecidableRel byVotes := fun a b =>
  inferInstanceAs (Decidable (b.votes ≤ a.votes))

instance : IsTotal GalleryEntry byNew :=
  ⟨fun a b => le_total b.createdAt a.createdAt⟩

instance : IsTrans GalleryEntry byNew :=
  ⟨fun _ _ _ h1 h2 => le_trans h2 h1⟩

instance : IsTotal GalleryEntry byVotes :=
  ⟨fun a b => Nat.le_total b.votes a.votes⟩

instance : IsTrans GalleryEntry byVotes :=
  ⟨fun _ _ _ h1 h2 => Nat.le_trans h2 h1⟩

/-- Modelled from the spec: `DatabaseService.get_gallery_items` is absent
from the sources (only its caller `get_gallery` exists); per spec §6,
`listEntries(sortKey)` orders by `createdAt` descending for "new" and by
`votes` descending for "votes", and the route windows the result with the
SQL-style offset and limit it receives. -/
def get_gallery_items (items : List GalleryEntry) (sort : String)
    (limit offset : ℕ) : List GalleryEntry :=
  let sorted := if sort = "votes" then List.insertionSort byVotes items
    else List.insertionSort byNew items
  (sorted.drop offset).take limit

/-- C8: sorting by "new" returns entries in non-increasing `createdAt`
order and sorting by "votes" in non-increasing vote order, for every
offset/limit window; the full window (offset 0, limit = size) is a
permutation of the stored entries. -/
theorem C8_gallery_sorting (items : List GalleryEntry) (limit offset : ℕ) :
    List.Sorted byNew (get_gallery_items items "new" limit offset) ∧
      List.Sorted byVotes (get_gallery_items items "votes" limit offset) ∧
      (get_gallery_items items "new" items.length 0).Perm items ∧
      (get_gallery_items items "votes" items.length 0).Perm items := by
  have hwin : ∀ (l : List GalleryEntry), ((l.drop offset).take limit).Sublist l :=
    fun l => ((l.drop offset).take_sublist limit).trans (l.drop_sublist offset)
  refine ⟨?_, ?_, ?_, ?_⟩
  · have h1 : get_gallery_items items "new" limit offset
        = ((List.insertionSort byNew items).drop offset).take limit := by
      simp [get_gallery_items]
    rw [h1]
    exact (List.sorted_insertionSort byNew items).sublist (hwin _)
  · have h1 : get_gallery_items items "votes" limit offset
        = ((List.insertionSort byVotes items).drop offset).take limit := by
      simp [get_gallery_items]
    rw [h1]
    exact (List.sorted_insertionSort byVotes items).sublist (hwin _)
  · have h1 : get_gallery_items items "new" items.length 0
        = (List.insertionSort byNew items).take items.length := by
      simp [get_gallery_items]
    rw [h1, List.take_of_length_le
      (by rw [(List.perm_insertionSort byNew items).length_eq])]
    exact List.perm_insertionSort byNew items
  · have h1 : get_gallery_items items "votes" items.length 0
        = (List.insertionSort byVotes items).take items.length := by
      simp [get_gallery_items]
    rw [h1, List.take_of_length_le
      (by rw [(List.perm_insertionSort byVotes items).length_eq])]
    exact List.perm_insertionSort byVotes items

end Iris
